import Mathlib

/-!
Shallow embedding of `simplejson.go` (package simplejson).

The Go type `Json` wraps a single field `data interface{}` holding a generic
JSON-decoded value.  Values produced by `json.Unmarshal` are: `nil`,
`bool`, `float64` (all JSON numbers), `string`, `[]interface{}` and
`map[string]interface{}`; callers may additionally store native `int` and
`int64` values through `SetData`/`Set`, and the `Int`/`Int64` accessors
inspect those cases.  The variant type `JValue` below models exactly that
universe.  Go `float64` payloads are modelled as rationals; the property we
verify about them (truncation toward zero in `Int`) is a property of the
real-valued magnitude and sign, not of binary floating point representation.
Go maps are modelled as association lists (first binding wins on lookup,
`mapSet` overwrites in place or appends).
-/

inductive JValue where
  | null : JValue
  | bool : Bool → JValue
  | float : Rat → JValue
  | int : Int → JValue
  | int64 : Int → JValue
  | str : String → JValue
  | arr : List JValue → JValue
  | obj : List (String × JValue) → JValue

structure Json where
  data : JValue

/-- Lookup in the association-list model of a Go `map[string]interface{}`. -/
def lookup : List (String × JValue) → String → Option JValue
  | [], _ => none
  | (k, v) :: rest, key => if k = key then some v else lookup rest key

/-- Assignment `m[key] = v` on the association-list model of a Go map:
overwrite the binding when present, append it otherwise. -/
def mapSet (m : List (String × JValue)) (key : String) (v : JValue) :
    List (String × JValue) :=
  if (lookup m key).isSome then
    m.map (fun p => if p.1 = key then (key, v) else p)
  else
    m ++ [(key, v)]

/-- Embeds `func (j *Json) Map() (map[string]interface{}, error)` -/
def Json.Map : Json → Except String (List (String × JValue))
  | ⟨.obj m⟩ => .ok m
  | _ => .error "type assertion to map[string]interface\x7b\x7d failed"

/-- Embeds `func (j *Json) Array() ([]interface{}, error)` -/
def Json.Array : Json → Except String (List JValue)
  | ⟨.arr a⟩ => .ok a
  | _ => .error "type assertion to []interface\x7b\x7d failed"

/-- Embeds `func (j *Json) IsNull() bool`: true when `data == nil`, else when the
map type assertion succeeds the result is `len(m) == 0`, else false. -/
def Json.IsNull (j : Json) : Bool :=
  match j.data with
  | .null => true
  | _ =>
    match j.Map with
    | .ok m => m.length == 0
    | .error _ => false

/-- Embeds `func (j *Json) Get(key string) *Json` -/
def Json.Get (j : Json) (key : String) : Json :=
  match j.Map with
  | .ok m =>
    match lookup m key with
    | some v => ⟨v⟩
    | none => ⟨.null⟩
  | .error _ => ⟨.null⟩

/-- Embeds `func (j *Json) CheckGet(key string) (*Json, bool)`; the `nil` pointer
returned on failure is modelled as `none`. -/
def Json.CheckGet (j : Json) (key : String) : Option Json × Bool :=
  match j.Map with
  | .ok m =>
    match lookup m key with
    | some v => (some ⟨v⟩, true)
    | none => (none, false)
  | .error _ => (none, false)

/-- Embeds `func (j *Json) GetPath(branch ...string) *Json`: walk the keys,
returning `&Json{nil}` as soon as the current value is not a map or the
key is absent. -/
def Json.GetPath (j : Json) : List String → Json
  | [] => j
  | key :: rest =>
    match j.Map with
    | .ok m =>
      match lookup m key with
      | some v => Json.GetPath ⟨v⟩ rest
      | none => ⟨.null⟩
    | .error _ => ⟨.null⟩

/-- Embeds `func (j *Json) GetIndex(index int) *Json`.  The source guards the
element access only with `len(a) > index`; the access `a[index]` itself
is a Go runtime panic when `index < 0`, modelled here as `none`.  All
non-panicking outcomes are `some`. -/
def Json.GetIndex (j : Json) (index : ℤ) : Option Json :=
  match j.Array with
  | .ok a =>
    if h : index < (a.length : ℤ) then
      if h0 : 0 ≤ index then
        some ⟨a.get ⟨index.toNat, by omega⟩⟩
      else
        none
    else
      some ⟨.null⟩
  | .error _ => some ⟨.null⟩

/-- The `val interface{}` argument of `Set`: either a raw value or a
`*Json` wrapper (which `Set` unwraps before storing). -/
inductive SetVal where
  | raw : JValue → SetVal
  | wrapped : Json → SetVal

/-- The `switch val.(type) { case *Json: val = val.(*Json).data }` step. -/
def SetVal.unwrap : SetVal → JValue
  | .raw v => v
  | .wrapped j => j.data

/-- Embeds `func (j *Json) Set(key string, val interface{})`: no-op when the map
type assertion fails, otherwise store the (unwrapped) value.  Go mutates
the shared map in place; the functional model returns the updated value. -/
def Json.Set (j : Json) (key : String) (val : SetVal) : Json :=
  match j.Map with
  | .ok m => ⟨.obj (mapSet m key val.unwrap)⟩
  | .error _ => j

/-- Go's conversion `int(f)` for `f float64`: truncation toward zero. -/
def goIntOfFloat (q : ℚ) : ℤ :=
  if 0 ≤ q then ⌊q⌋ else ⌈q⌉

/-- Embeds `func (j *Json) Int() (int, error)`: switch on `float64`, `int`,
`int64`; any other dynamic type is an error. -/
def Json.Int : Json → Except String ℤ
  | ⟨.float f⟩ => .ok (goIntOfFloat f)
  | ⟨.int n⟩ => .ok n
  | ⟨.int64 n⟩ => .ok n
  | _ => .error "type assertion to int failed"

/-- Embeds `func (j *Json) MustInt(args ...int) int`: zero args means default 0,
one arg supplies the default, more than one is `log.Panicf` (modelled as
`none`); on success of `Int` its value is returned. -/
def Json.MustInt (j : Json) (args : List ℤ) : Option ℤ :=
  let dflt : Option ℤ :=
    match args with
    | [] => some 0
    | [d] => some d
    | _ => none
  match dflt with
  | none => none
  | some d =>
    match j.Int with
    | .ok i => some i
    | .error _ => some d

-- Model of the external JSON codec (`json.Marshal` on the decoded value
-- universe): a trusted black box per the spec; on `JValue` it is total.  The
-- exact rendering of numbers and string escapes is codec-internal and not
-- load-bearing for any claim.
mutual
def encodeVal : JValue → String
  | .null => "null"
  | .bool true => "true"
  | .bool false => "false"
  | .float q => toString q
  | .int n => toString n
  | .int64 n => toString n
  | .str s => "\"" ++ s ++ "\""
  | .arr a => "[" ++ encodeArr a ++ "]"
  | .obj m => "\x7b" ++ encodeObj m ++ "\x7d"

def encodeArr : List JValue → String
  | [] => ""
  | [v] => encodeVal v
  | v :: rest => encodeVal v ++ "," ++ encodeArr rest

def encodeObj : List (String × JValue) → String
  | [] => ""
  | [(k, v)] => "\"" ++ k ++ "\":" ++ encodeVal v
  | (k, v) :: rest => "\"" ++ k ++ "\":" ++ encodeVal v ++ "," ++ encodeObj rest
end

/-- Embeds `func (j *Json) MarshalJSON() ([]byte, error)`: `json.Marshal(&j.data)`,
total on the modelled value universe. -/
def Json.MarshalJSON (j : Json) : Except String String :=
  .ok (encodeVal j.data)

/-- Embeds `func (j *Json) ToString() (string, error)` -/
def Json.ToString (j : Json) : Except String String :=
  if j.IsNull then
    .error "data is null"
  else
    match j.MarshalJSON with
    | .ok b => .ok b
    | .error e => .error e

/-- Embeds `func (j *Json) Count() (int, error)`: `(-1, err)` when the map
accessor fails, `(len(m), nil)` otherwise. -/
def Json.Count (j : Json) : ℤ × Option String :=
  match j.Map with
  | .ok m => ((m.length : ℤ), none)
  | .error e => (-1, some e)

/-- Character-level model of `strings.Split(content, "\\n")`: split the
character list at every newline, keeping empty fields. -/
def splitOnNewline : List Char → List (List Char)
  | [] => [[]]
  | c :: rest =>
    let r := splitOnNewline rest
    if c = Char.ofNat 10 then
      [] :: r
    else
      match r with
      | [] => [[c]]
      | hd :: tl => (c :: hd) :: tl

/-- Whitespace test of `strings.TrimSpace`, which is `unicode.IsSpace`:
the Unicode White_Space property, i.e. U+0009 through U+000D (tab,
newline, vertical tab, form feed, carriage return), space, next line
U+0085, no-break space U+00A0, ogham space mark U+1680, the space
separators U+2000 through U+200A, line separator U+2028, paragraph
separator U+2029, narrow no-break space U+202F, medium mathematical
space U+205F and ideographic space U+3000. -/
def isSpaceChar (c : Char) : Bool :=
  (9 ≤ c.toNat && c.toNat ≤ 13) || c.toNat = 32 || c.toNat = 0x85 || c.toNat = 0xA0
    || c.toNat = 0x1680 || (0x2000 ≤ c.toNat && c.toNat ≤ 0x200A)
    || c.toNat = 0x2028 || c.toNat = 0x2029 || c.toNat = 0x202F
    || c.toNat = 0x205F || c.toNat = 0x3000

/-- Character-level model of `strings.TrimSpace`: drop leading and
trailing whitespace. -/
def trimChars (cs : List Char) : List Char :=
  ((cs.dropWhile isSpaceChar).reverse.dropWhile isSpaceChar).reverse

/-- Character-level model of `strings.HasPrefix(line, "#")`. -/
def startsWithHash : List Char → Bool
  | [] => false
  | c :: _ => c = '#'

/-- The line-keeping test of `NewJsonFromFile`: a (trimmed) line survives
unless it is empty or starts with `#`. -/
def keepLine (line : List Char) : Bool :=
  !(line.isEmpty || startsWithHash line)

/-- The per-line loop of `NewJsonFromFile`: trim every line, drop the
empty and `#`-comment lines. -/
def stripLines (ls : List (List Char)) : List (List Char) :=
  (ls.map trimChars).filter keepLine

/-- The preprocessing of `NewJsonFromFile`: split on newlines, trim, drop
comment/empty lines, concatenate without reinserting newlines. -/
def preprocessContent (content : String) : String :=
  String.mk ((stripLines (splitOnNewline content.data)).flatten)

/-- Embeds `func NewJsonFromFile(filename string) (*Json, error)` after the file
read succeeded with `content`: decode the preprocessed buffer.  The JSON
decoder (`json.Unmarshal` inside `NewJson`) is the external trusted codec
and is passed as a parameter. -/
def NewJsonFromFileContent (decode : String → Except String JValue)
    (content : String) : Except String JValue :=
  decode (preprocessContent content)

/-! ## Helper lemmas -/

/-- Navigating from the nil wrapper stays at the nil wrapper. -/
theorem get_null (key : String) : (Json.mk JValue.null).Get key = Json.mk JValue.null :=
  rfl

/-- Iterated `Get` starting from the nil wrapper stays at the nil wrapper. -/
theorem foldl_get_null (branch : List String) :
    List.foldl Json.Get (Json.mk JValue.null) branch = Json.mk JValue.null := by
  induction branch with
  | nil => rfl
  | cons key rest ih => rw [List.foldl_cons, get_null, ih]

/-! ## Claims -/

/-- C3: for every held value and every key sequence, `GetPath` returns the
same wrapper as folding `Get` over the keys; with zero keys it returns the
receiver unchanged. -/
theorem getPath_eq_iterated_get (j : Json) (branch : List String) :
    j.GetPath branch = List.foldl Json.Get j branch := by
  induction branch generalizing j with
  | nil => rfl
  | cons key rest ih =>
    rw [List.foldl_cons]
    cases hm : j.Map with
    | ok m =>
      cases hl : lookup m key with
      | some v => simp [Json.GetPath, Json.Get, hm, hl, ih]
      | none => simp [Json.GetPath, Json.Get, hm, hl, foldl_get_null]
    | error e => simp [Json.GetPath, Json.Get, hm, foldl_get_null]

/-- C4: `IsNull` is true exactly on the null marker and on mappings with
zero entries; every other held value reports false. -/
theorem isNull_characterization (j : Json) :
    j.IsNull = true ↔
      (j.data = JValue.null ∨ ∃ m, j.data = JValue.obj m ∧ m.length = 0) := by
  obtain ⟨d⟩ := j
  cases d <;> simp [Json.IsNull, Json.Map]

/-- C1 fails on the code: `GetIndex` guards the element access only with
`len(a) > index`, so a negative index on a sequence receiver reaches
`a[index]` and panics at runtime (modelled as `none`), instead of
returning the null-ish wrapper; nonnegative indices and non-sequence
receivers do behave as the claim states. -/
theorem getIndex_negative_index_panics :
    (Json.mk (JValue.arr [JValue.int 1, JValue.int 2, JValue.int 3])).GetIndex (-1) = none
  ∧ (Json.mk (JValue.arr [JValue.int 1, JValue.int 2, JValue.int 3])).GetIndex 1
      = some (Json.mk (JValue.int 2))
  ∧ (Json.mk (JValue.arr [JValue.int 1, JValue.int 2, JValue.int 3])).GetIndex 5
      = some (Json.mk JValue.null)
  ∧ (Json.mk (JValue.str "x")).GetIndex (-1) = some (Json.mk JValue.null) :=
  ⟨rfl, rfl, rfl, rfl⟩

/-- C10: `Count` returns `(-1, err)` with the propagated map type
assertion error on every non-mapping receiver, and the entry count with
no error on every mapping receiver. -/
theorem count_spec (j : Json) :
    (∀ m, j.data = JValue.obj m → j.Count = ((m.length : ℤ), none))
  ∧ ((∀ m, j.data ≠ JValue.obj m) →
      j.Count = (-1, some "type assertion to map[string]interface\x7b\x7d failed")) := by
  obtain ⟨d⟩ := j
  constructor
  · intro m hm
    have h2 : d = JValue.obj m := hm
    subst h2
    rfl
  · intro h
    cases d <;> try rfl
    exact absurd rfl (h _)

/-- C10 witness: `Count` evaluated on a sequence and on a one-entry
mapping. -/
theorem count_spec_witness :
    (Json.mk (JValue.arr [])).Count
      = (-1, some "type assertion to map[string]interface\x7b\x7d failed")
  ∧ (Json.mk (JValue.obj [("a", JValue.int 1)])).Count = (1, none) :=
  ⟨(count_spec (Json.mk (JValue.arr []))).2 (fun _ h => nomatch h),
   (count_spec (Json.mk (JValue.obj [("a", JValue.int 1)]))).1 [("a", JValue.int 1)] rfl⟩

/-- C8: `MustInt` with no argument returns `Int`'s value on success and 0
on failure; with exactly one argument it returns `Int`'s value on success
and that argument on failure. -/
theorem mustInt_spec (j : Json) (d : ℤ) :
    (∀ n, j.Int = Except.ok n → j.MustInt [] = some n ∧ j.MustInt [d] = some n)
  ∧ (∀ e, j.Int = Except.error e → j.MustInt [] = some 0 ∧ j.MustInt [d] = some d) := by
  constructor
  · intro n hn
    constructor <;> simp [Json.MustInt, hn]
  · intro e he
    constructor <;> simp [Json.MustInt, he]

/-- C8 witness: `MustInt` evaluated on a boolean (where `Int` fails) with
and without a default, and on a native int (where `Int` succeeds). -/
theorem mustInt_spec_witness :
    (Json.mk (JValue.bool true)).MustInt [] = some 0
  ∧ (Json.mk (JValue.bool true)).MustInt [42] = some 42
  ∧ (Json.mk (JValue.int 7)).MustInt [] = some 7 :=
  ⟨((mustInt_spec (Json.mk (JValue.bool true)) 42).2 "type assertion to int failed" rfl).1,
   ((mustInt_spec (Json.mk (JValue.bool true)) 42).2 "type assertion to int failed" rfl).2,
   ((mustInt_spec (Json.mk (JValue.int 7)) 0).1 7 rfl).1⟩

/-- C2 counterexample: the claim's "single exception" (key present mapping
to JSON null) is not the only one.  For the mapping `{"k": {}}` the key
`"k"` maps to an empty mapping, not to null, yet `Get` returns a wrapper
whose `IsNull` is true while `CheckGet` returns true — so the claimed
equivalence fails at this input. -/
theorem checkGet_claim_counterexample :
    ¬ ( lookup [("k", JValue.obj [])] "k" ≠ some JValue.null →
        ((((Json.mk (JValue.obj [("k", JValue.obj [])])).CheckGet "k").2 = false)
          ↔ ((Json.mk (JValue.obj [("k", JValue.obj [])])).Get "k").IsNull = true) ) := by
  intro hclaim
  have hne : lookup [("k", JValue.obj [])] "k" ≠ some JValue.null := fun h => nomatch h
  have hfalse : (true : Bool) = false := (hclaim hne).mpr rfl
  exact Bool.noConfusion hfalse

/-- C2 amended: for every mapping receiver and key, `CheckGet` returns
`(_, false)` exactly when `Get` returns a null-ish wrapper, except when the
key is present and maps to a value that is itself null-ish (JSON null or an
empty mapping), where `Get` returns a null-ish wrapper while `CheckGet`
returns that wrapper together with true. -/
theorem checkGet_get_null_relation (m : List (String × JValue)) (k : String) :
    ((∀ v, lookup m k = some v → (Json.mk v).IsNull = false) →
      ((((Json.mk (JValue.obj m)).CheckGet k).2 = false)
        ↔ ((Json.mk (JValue.obj m)).Get k).IsNull = true))
  ∧ (∀ v, lookup m k = some v → (Json.mk v).IsNull = true →
      ((Json.mk (JValue.obj m)).Get k).IsNull = true
      ∧ ((Json.mk (JValue.obj m)).CheckGet k).2 = true) := by
  constructor
  · intro hv
    cases hl : lookup m k with
    | none => simp [Json.CheckGet, Json.Get, Json.Map, Json.IsNull, hl]
    | some v =>
      have hnotnull := hv v hl
      simp [Json.CheckGet, Json.Get, Json.Map, hl, hnotnull]
  · intro v hl hnull
    constructor
    · simpa [Json.Get, Json.Map, hl] using hnull
    · simp [Json.CheckGet, Json.Map, hl]

/-- C2 witness: the equivalence at a mapping whose only key holds a
non-null-ish value, and the exception branch at a key holding JSON null. -/
theorem checkGet_get_null_relation_witness :
    ((((Json.mk (JValue.obj [("a", JValue.int 1)])).CheckGet "b").2 = false)
      ↔ ((Json.mk (JValue.obj [("a", JValue.int 1)])).Get "b").IsNull = true)
  ∧ ((Json.mk (JValue.obj [("a", JValue.null)])).CheckGet "a").2 = true :=
  ⟨(checkGet_get_null_relation [("a", JValue.int 1)] "b").1
      (fun v hv => by simp [lookup] at hv),
   ((checkGet_get_null_relation [("a", JValue.null)] "a").2 JValue.null rfl rfl).2⟩

/-- After an overwriting `mapSet` on a present key, looking that key up
yields the stored value. -/
theorem lookup_map_overwrite (m : List (String × JValue)) (k : String) (w : JValue)
    (h : (lookup m k).isSome = true) :
    lookup (m.map (fun p => if p.1 = k then (k, w) else p)) k = some w := by
  induction m with
  | nil => simp [lookup] at h
  | cons p rest ih =>
    obtain ⟨k1, v1⟩ := p
    by_cases hk : k1 = k
    · subst hk
      simp only [List.map_cons]
      simp [lookup]
    · have h2 : (lookup rest k).isSome = true := by simpa [lookup, hk] using h
      simp only [List.map_cons]
      rw [show (if (k1, v1).1 = k then (k, w) else (k1, v1)) = (k1, v1) from if_neg hk]
      simp only [lookup]
      rw [if_neg hk]
      exact ih h2

/-- Appending a binding for an absent key makes lookup on that key yield
the stored value. -/
theorem lookup_append_new (m : List (String × JValue)) (k : String) (w : JValue)
    (h : lookup m k = none) :
    lookup (m ++ [(k, w)]) k = some w := by
  induction m with
  | nil => simp [lookup]
  | cons p rest ih =>
    obtain ⟨k1, v1⟩ := p
    by_cases hk : k1 = k
    · simp [lookup, hk] at h
    · have h2 : lookup rest k = none := by simpa [lookup, hk] using h
      simpa [lookup, hk] using ih h2

/-- Lookup immediately after `mapSet` on the same key yields the stored
value. -/
theorem lookup_mapSet (m : List (String × JValue)) (k : String) (w : JValue) :
    lookup (mapSet m k w) k = some w := by
  unfold mapSet
  by_cases h : (lookup m k).isSome = true
  · rw [if_pos h]
    exact lookup_map_overwrite m k w h
  · rw [if_neg h]
    exact lookup_append_new m k w (Option.not_isSome_iff_eq_none.mp h)

/-- C5: on a mapping receiver, `Set(k, v)` followed by `Get(k)` yields a
wrapper holding `v` (unwrapped to its held raw value when `v` is itself a
wrapper); on a non-mapping receiver `Set` is a silent no-op. -/
theorem set_then_get (j : Json) (k : String) (v : SetVal) :
    ((∃ m, j.data = JValue.obj m) → ((j.Set k v).Get k).data = v.unwrap)
  ∧ ((∀ m, j.data ≠ JValue.obj m) → j.Set k v = j) := by
  obtain ⟨d⟩ := j
  constructor
  · rintro ⟨m, hm⟩
    have h2 : d = JValue.obj m := hm
    subst h2
    simp [Json.Set, Json.Map, Json.Get, lookup_mapSet]
  · intro h
    cases d <;> try rfl
    exact absurd rfl (h _)

/-- C5 witness: set-then-get of a raw value on an empty mapping, of a
wrapped value overwriting an existing key, and the no-op on a string
receiver. -/
theorem set_then_get_witness :
    (((Json.mk (JValue.obj [])).Set "k" (SetVal.raw (JValue.str "x"))).Get "k").data
      = JValue.str "x"
  ∧ (((Json.mk (JValue.obj [("k", JValue.int 1)])).Set "k"
        (SetVal.wrapped (Json.mk (JValue.int 2)))).Get "k").data = JValue.int 2
  ∧ (Json.mk (JValue.str "s")).Set "k" (SetVal.raw JValue.null)
      = Json.mk (JValue.str "s") :=
  ⟨(set_then_get (Json.mk (JValue.obj [])) "k" (SetVal.raw (JValue.str "x"))).1 ⟨[], rfl⟩,
   (set_then_get (Json.mk (JValue.obj [("k", JValue.int 1)])) "k"
      (SetVal.wrapped (Json.mk (JValue.int 2)))).1 ⟨[("k", JValue.int 1)], rfl⟩,
   (set_then_get (Json.mk (JValue.str "s")) "k" (SetVal.raw JValue.null)).2
      (fun _ h => nomatch h)⟩

/-- C6: `ToString` fails exactly when `IsNull` is true — in particular on
the empty mapping — with the null-data error, and otherwise returns the
serialization of the held value. -/
theorem toString_spec (j : Json) :
    ((∃ e, j.ToString = Except.error e) ↔ j.IsNull = true)
  ∧ (j.IsNull = false → j.ToString = Except.ok (encodeVal j.data))
  ∧ (j.data = JValue.obj [] → j.ToString = Except.error "data is null") := by
  obtain ⟨d⟩ := j
  refine ⟨?_, ?_, ?_⟩
  · cases h : (Json.mk d).IsNull <;>
      simp [Json.ToString, Json.MarshalJSON, h]
  · intro h
    simp [Json.ToString, Json.MarshalJSON, h]
  · intro h
    have h2 : d = JValue.obj [] := h
    subst h2
    rfl

/-- C6 witness: `ToString` on a string value and on the empty mapping. -/
theorem toString_spec_witness :
    (Json.mk (JValue.str "a")).ToString = Except.ok (encodeVal (JValue.str "a"))
  ∧ (Json.mk (JValue.obj [])).ToString = Except.error "data is null" :=
  ⟨(toString_spec (Json.mk (JValue.str "a"))).2.1 rfl,
   (toString_spec (Json.mk (JValue.obj []))).2.2 rfl⟩

/-- C7: `Int` succeeds exactly on float, native int and native int64
payloads; on a float payload the result is the float truncated toward
zero (its magnitude is the floor of the float's magnitude, its sign that
of the float). -/
theorem int_accessor_spec (j : Json) :
    ((∃ n, j.Int = Except.ok n) ↔
      ((∃ q, j.data = JValue.float q) ∨ (∃ n, j.data = JValue.int n)
        ∨ (∃ n, j.data = JValue.int64 n)))
  ∧ (∀ q, j.data = JValue.float q →
      j.Int = Except.ok (goIntOfFloat q)
      ∧ |goIntOfFloat q| = ⌊|q|⌋
      ∧ (0 ≤ q → 0 ≤ goIntOfFloat q)
      ∧ (q < 0 → goIntOfFloat q ≤ 0)) := by
  obtain ⟨d⟩ := j
  constructor
  · cases d <;> simp [Json.Int]
  · intro q hq
    have h2 : d = JValue.float q := hq
    subst h2
    refine ⟨rfl, ?_, ?_, ?_⟩
    · unfold goIntOfFloat
      rcases le_or_lt 0 q with h | h
      · rw [if_pos h, abs_of_nonneg (Int.floor_nonneg.mpr h), abs_of_nonneg h]
      · have hc : ⌈q⌉ ≤ 0 := by
          rw [Int.ceil_le]
          exact_mod_cast h.le
        rw [if_neg (not_le.mpr h), abs_of_nonpos hc, abs_of_neg h, Int.floor_neg]
    · intro h
      unfold goIntOfFloat
      rw [if_pos h]
      exact Int.floor_nonneg.mpr h
    · intro h
      unfold goIntOfFloat
      rw [if_neg (not_le.mpr h), Int.ceil_le]
      exact_mod_cast h.le

/-- C7 witness: `Int` on the float -7/2 and the truncation
characterization at that input. -/
theorem int_accessor_spec_witness :
    (Json.mk (JValue.float (-(7 : ℚ)/2))).Int = Except.ok (goIntOfFloat (-(7 : ℚ)/2))
  ∧ |goIntOfFloat (-(7 : ℚ)/2)| = ⌊|(-(7 : ℚ)/2)|⌋ :=
  ⟨((int_accessor_spec (Json.mk (JValue.float (-(7 : ℚ)/2)))).2 (-(7 : ℚ)/2) rfl).1,
   ((int_accessor_spec (Json.mk (JValue.float (-(7 : ℚ)/2)))).2 (-(7 : ℚ)/2) rfl).2.1⟩

/-- Unfolding equation for the per-line loop on a cons cell. -/
theorem stripLines_cons (l : List Char) (rest : List (List Char)) :
    stripLines (l :: rest) =
      if keepLine (trimChars l) then trimChars l :: stripLines rest
      else stripLines rest := by
  simp [stripLines, List.filter_cons]

/-- Dropping the full-line comments (lines whose trimmed form starts with
`#`) from the line list does not change the result of the per-line loop. -/
theorem stripLines_filter_comments (ls : List (List Char)) :
    stripLines (ls.filter (fun l => !(startsWithHash (trimChars l)))) = stripLines ls := by
  induction ls with
  | nil => rfl
  | cons l rest ih =>
    by_cases h : startsWithHash (trimChars l)
    · have hk : keepLine (trimChars l) = false := by simp [keepLine, h]
      simp [List.filter_cons, h, stripLines_cons, hk, ih]
    · simp [List.filter_cons, h, stripLines_cons, ih]

/-- C9: `NewJsonFromFile` decodes the buffer obtained by splitting the
content into lines, trimming each line, discarding the lines that are
empty or start with `#` after trimming, and concatenating the survivors
without reinserting newlines; consequently any content parses identically
to the content whose line list is the same with the full-line comment
lines removed. -/
theorem newJsonFromFile_strips_comment_lines (decode : String → Except String JValue)
    (content withoutComments : String)
    (h : splitOnNewline withoutComments.data
        = (splitOnNewline content.data).filter (fun l => !(startsWithHash (trimChars l)))) :
    NewJsonFromFileContent decode content
      = decode (String.mk ((((splitOnNewline content.data).map trimChars).filter
          keepLine).flatten))
  ∧ NewJsonFromFileContent decode content
      = NewJsonFromFileContent decode withoutComments := by
  constructor
  · rfl
  · unfold NewJsonFromFileContent preprocessContent
    rw [h, stripLines_filter_comments]

/-- C9 witness: a content interleaving two full-line comments — one
indented with spaces, one with a form feed — decodes exactly like the
content with those lines removed. -/
theorem newJsonFromFile_strips_comment_lines_witness :
    NewJsonFromFileContent (fun s => Except.ok (JValue.str s)) "  # a\n\x0c# b\n[1, 2]"
      = NewJsonFromFileContent (fun s => Except.ok (JValue.str s)) "[1, 2]" :=
  (newJsonFromFile_strips_comment_lines (fun s => Except.ok (JValue.str s))
    "  # a\n\x0c# b\n[1, 2]" "[1, 2]" (by decide)).2
